import Mathlib

/-!
Verification of the chamomile p2p core against its specification.

Shallow embedding of:
- `src/src/hole_punching.rs` (the `nat` resolver and the `DHT` payload codec),
- `src/src/session.rs` (the per-connection session loop `start`),
- `src/types/src/key.rs` (recoverable signatures and key persistence).

Parts of the repository that the session loop uses but whose sources are not
under `src/` (the `Peer` record of `peer.rs`, the `SessionKey` exchange of
`keys.rs`, the transport message type) are modelled from the spec; each such
definition carries a doc comment saying so.  Bytes are `Nat` values and byte
strings are `List Nat`; machine-integer casts are explicit `% 2 ^ w`.
-/

set_option maxHeartbeats 1000000

namespace Chamomile

/-- Little-endian value of a byte string (first byte least significant),
as `u32::from_le_bytes` reads the DHT count. -/
def bytesToNatLE : List Nat → Nat
  | [] => 0
  | b :: rest => b + 256 * bytesToNatLE rest

/-- Fixed-width little-endian byte string of a value, as `u32::to_le_bytes`
writes the DHT count. -/
def natToBytesLE : Nat → Nat → List Nat
  | 0, _ => []
  | w + 1, v => v % 256 :: natToBytesLE w (v / 256)

/-- Big-endian value of a byte string, used for the 32-byte secret scalar. -/
def bytesToNatBE (l : List Nat) : Nat := l.foldl (fun acc b => acc * 256 + b) 0

/-- Socket address: ip and port, the two components `nat` manipulates
(`SocketAddr::port` / `SocketAddr::set_port`). -/
structure SocketAddr where
  ip : Nat
  port : Nat
deriving DecidableEq

/-- Modelled from the spec: the transport kinds of
`chamomile_types::types::TransportType` (not under `src/`); `TCP` is the
stream-oriented kind singled out by the resolver, the others pass through. -/
inductive TransportType where
  | TCP
  | UDP
  | RTP
  | UDT
deriving DecidableEq

/-- Modelled from the spec: the peer descriptor of `src/src/peer.rs` (not under
`src/`): id, address, transport kind, public-reachability flag; the accessors
`id()`, `addr()`, `transport()`, `set_addr`, `set_is_pub` are field
access/update. -/
structure Peer where
  id : Nat
  addr : SocketAddr
  transport : TransportType
  is_pub : Bool
deriving DecidableEq

/-- `nat` from `src/src/hole_punching.rs` lines 67-78: for TCP the observed
address's port is first overridden with the claimed local port; then the
descriptor's address is set to the (possibly overridden) observed address, and
`is_pub` is set by comparing `remote_addr.port()` with `local.addr().port()`
after that assignment. -/
def nat (remote_addr : SocketAddr) (l : Peer) : Peer :=
  let remote_addr' :=
    match l.transport with
    | TransportType.TCP => { remote_addr with port := l.addr.port }
    | _ => remote_addr
  let l1 := { l with addr := remote_addr' }
  let l2 := { l1 with is_pub := remote_addr'.port == l1.addr.port }
  l2

/-- Modelled from the spec: the fixed record width of the peer codec
(`PEER_LENGTH` of `src/src/peer.rs`, not under `src/`): 20-byte id, 16-byte ip,
2-byte port, transport tag byte, flags byte. -/
def PEER_LENGTH : Nat := 40

/-- Modelled from the spec: transport tag byte of the peer record. -/
def transportToByte : TransportType → Nat
  | .TCP => 0
  | .UDP => 1
  | .RTP => 2
  | .UDT => 3

/-- Modelled from the spec: transport tag decoding, failing closed on an
unknown byte. -/
def transportFromByte : Nat → Option TransportType
  | 0 => some .TCP
  | 1 => some .UDP
  | 2 => some .RTP
  | 3 => some .UDT
  | _ => none

/-- Modelled from the spec: `Peer::to_bytes` of `src/src/peer.rs` (not under
`src/`): a record encoded at the fixed byte width `PEER_LENGTH`. -/
def Peer.to_bytes (p : Peer) : List Nat :=
  natToBytesLE 20 p.id ++ natToBytesLE 16 p.addr.ip ++ natToBytesLE 2 p.addr.port
    ++ [transportToByte p.transport] ++ [if p.is_pub then 1 else 0]

/-- Modelled from the spec: `Peer::from_bytes` of `src/src/peer.rs` (not under
`src/`): validates the total length against the declared width and fails
closed on mismatch. -/
def Peer.from_bytes (b : List Nat) : Option Peer :=
  if b.length = PEER_LENGTH then
    match (b.drop 38).take 2 with
    | [tb, fb] =>
      match transportFromByte tb with
      | some t =>
          some ⟨bytesToNatLE (b.take 20),
                ⟨bytesToNatLE ((b.drop 20).take 16), bytesToNatLE ((b.drop 36).take 2)⟩,
                t, fb == 1⟩
      | none => none
    | _ => none
  else none

/-- Well-formedness of a peer record: each field fits its fixed wire width. -/
abbrev Peer.wf (p : Peer) : Prop :=
  p.id < 256 ^ 20 ∧ p.addr.ip < 256 ^ 16 ∧ p.addr.port < 256 ^ 2

/-- `DHT` payload from `src/src/hole_punching.rs` line 15: a list of peer
records. -/
structure DHT where
  peers : List Peer
deriving DecidableEq

/-- `DHT::to_bytes` from `src/src/hole_punching.rs` lines 57-64: 4-byte
little-endian count (`len as u32`, hence `% 2 ^ 32`) followed by the
concatenated records. -/
def DHT.to_bytes (d : DHT) : List Nat :=
  natToBytesLE 4 (d.peers.length % 2 ^ 32) ++ (d.peers.map Peer.to_bytes).flatten

/-- The decode loop of `DHT::from_bytes` (`for i in 0..len` over
`PEER_LENGTH`-wide chunks), propagating any record failure. -/
def decodeChunks : Nat → List Nat → Option (List Peer)
  | 0, _ => some []
  | n + 1, raw => do
      let p ← Peer.from_bytes (raw.take PEER_LENGTH)
      let ps ← decodeChunks n (raw.drop PEER_LENGTH)
      pure (p :: ps)

/-- `DHT::from_bytes` from `src/src/hole_punching.rs` lines 37-55: fails if
fewer than 4 bytes, reads the little-endian count, fails if the remainder is
shorter than `count * PEER_LENGTH`, then decodes the chunks. -/
def DHT.from_bytes (bytes : List Nat) : Option DHT :=
  if bytes.length < 4 then none
  else if (bytes.drop 4).length < bytesToNatLE (bytes.take 4) * PEER_LENGTH then none
  else (decodeChunks (bytesToNatLE (bytes.take 4)) (bytes.drop 4)).map DHT.mk

/-- `Hole` from `src/src/hole_punching.rs` lines 9-13. -/
inductive HoleMsg where
  | StunOne
  | StunTwo
  | Help
deriving DecidableEq

/-- `SessionType` from `src/src/session.rs` lines 311-320: the tagged wire
message of the session protocol. -/
inductive SessionType where
  | Key : List Nat → SessionType
  | Data : Nat → Nat → List Nat → SessionType
  | DHT : Chamomile.DHT → List Nat → SessionType
  | Hole : HoleMsg → SessionType
  | HoleConnect : SessionType
  | Ping : SessionType
  | Pong : SessionType
deriving DecidableEq

/-- Modelled from the spec: the session-key exchange of `crate::keys` (not
under `src/`), as the opaque operations the loop calls; the exchange state is
a `Nat`.  `in_bytes` consumes remote key material returning the acceptance
flag and the mutated state; `out_bytes` produces this side's key material;
`encrypt`/`decrypt` are the symmetric operations, `decrypt` failing with
`none`. -/
structure SKOps where
  is_ok : Nat → Bool
  in_bytes : Nat → List Nat → Bool × Nat
  out_bytes : Nat → List Nat
  encrypt : Nat → List Nat → List Nat
  decrypt : Nat → List Nat → Option (List Nat)

/-- `SessionSendMessage` from `src/src/session.rs` lines 22-29: commands the
registry sends to a session. -/
inductive SessionSendMessage where
  | Ok : List Nat → Bool → SessionSendMessage
  | Close : SessionSendMessage
  | Bytes : Nat → Nat → List Nat → SessionSendMessage
deriving DecidableEq

/-- Modelled from the spec: an inbound `EndpointStreamMessage` as the loop
sees it (`crate::transports` is not under `src/`); the bincode decoding of a
`Bytes` frame is external, so a frame is modelled as either a decoded
`SessionType` or a malformed frame, next to the `Close` variant and the
catch-all other variants of the transport message. -/
inductive EndpointIn where
  | frame : SessionType → EndpointIn
  | malformed : EndpointIn
  | close : EndpointIn
  | other : EndpointIn
deriving DecidableEq

/-- One ready event of the session's `select!` loop: a message or a channel
error from the endpoint side, or a command or a channel error from the
registry side. -/
inductive Event where
  | endpoint : EndpointIn → Event
  | endpointErr : Event
  | registry : SessionSendMessage → Event
  | registryErr : Event
deriving DecidableEq

/-- The observable actions of one session: registry notifications
(`server_send`), outbound wire messages (`endpoint_send`), upward delivery
(`out_sender`) and relay into another session's channel. -/
inductive Output where
  | connected : Nat → Peer → List Nat → Bool → Output
  | closeNotify : Nat → Output
  | connectReq : SocketAddr → Output
  | sendFrame : SessionType → Output
  | sendRemotePublic : Peer → List Nat → Output
  | endpointClose : Output
  | deliver : Nat → List Nat → Output
  | relay : Nat → Nat → List Nat → Output
deriving DecidableEq

/-- The mutable state of the session loop of `src/src/session.rs`: the
acceptance flag `is_ok`, the key-exchange state, and the two unkeyed-period
buffers (`buffers`, `receiver_buffers`), pushed at the list end as `Vec::push`
does. -/
structure SessionState where
  is_ok : Bool
  skState : Nat
  buffers : List (Nat × List Nat)
  receiver_buffers : List (List Nat)
deriving DecidableEq

/-- The per-session immutable context: the key-exchange operations, this
node's descriptor, the remote peer id, the registry lookups
(`peer_list.get`, `peer_list.get_it`) and the gossip candidates
(`get_dht_help`). -/
structure SessionConfig where
  ops : SKOps
  myPeer : Peer
  remotePeerId : Nat
  getPeer : Nat → Bool
  getIt : Nat → Bool
  dhtHelp : List Peer

/-- The outbound-buffer flush of `src/src/session.rs` lines 153-164: the
`while !buffers.is_empty() { buffers.pop() }` loop, which emits the
last-pushed element first. -/
def popFlush {α β : Type} (f : α → β) : List α → List β
  | [] => []
  | x :: xs => popFlush f xs ++ [f x]

/-- The inbound-buffer flush of `src/src/session.rs` lines 166-176: the
`while`/`pop` loop that emits only the elements `f` accepts, last-pushed
first. -/
def popFlushOpt {α β : Type} (f : α → Option β) : List α → List β
  | [] => []
  | x :: xs => popFlushOpt f xs ++ (f x).toList

/-- The encrypted `Data` frame sent for one popped outbound buffer entry
(`src/src/session.rs` lines 154-163). -/
def encOut (cfg : SessionConfig) (sk : Nat) (pb : Nat × List Nat) : Output :=
  .sendFrame (.Data cfg.myPeer.id pb.1 (cfg.ops.encrypt sk pb.2))

/-- The upward delivery for one popped inbound buffer entry, dropped silently
on decrypt failure (`src/src/session.rs` lines 166-176). -/
def decIn (cfg : SessionConfig) (sk : Nat) (e : List Nat) : Option Output :=
  (cfg.ops.decrypt sk e).map (fun d => .deliver cfg.remotePeerId d)

/-- The `SessionType::Key` arm of the loop (`src/src/session.rs` lines
133-178): if the key is not ready, feed the bytes in — on rejection notify
`Close`, close the transport and break; on acceptance send own key material —
then flush both unkeyed-period buffers. -/
def handleKey (cfg : SessionConfig) (s : SessionState) (bytes : List Nat) :
    SessionState × List Output × Bool :=
  if !cfg.ops.is_ok s.skState then
    let r := cfg.ops.in_bytes s.skState bytes
    if !r.1 then
      ({ s with skState := r.2 }, [.closeNotify cfg.remotePeerId, .endpointClose], false)
    else
      ({ s with skState := r.2, buffers := [], receiver_buffers := [] },
       .sendFrame (.Key (cfg.ops.out_bytes r.2)) ::
         (popFlush (encOut cfg r.2) s.buffers ++ popFlushOpt (decIn cfg r.2) s.receiver_buffers),
       true)
  else
    ({ s with buffers := [], receiver_buffers := [] },
     popFlush (encOut cfg s.skState) s.buffers ++ popFlushOpt (decIn cfg s.skState) s.receiver_buffers,
     true)

/-- The `SessionType::Data` arm (`src/src/session.rs` lines 179-209): ignored
while the key is not ready; decrypt, dropping silently on failure; deliver
upward if addressed to this node, otherwise relay the plaintext to the target
session when the registry has one, else drop. -/
def handleData (cfg : SessionConfig) (s : SessionState) (fromP toP : Nat)
    (e_data : List Nat) : SessionState × List Output × Bool :=
  if !cfg.ops.is_ok s.skState then (s, [], true)
  else
    match cfg.ops.decrypt s.skState e_data with
    | none => (s, [], true)
    | some d =>
      if toP = cfg.myPeer.id then (s, [.deliver fromP d], true)
      else if cfg.getPeer toP then (s, [.relay fromP toP d], true)
      else (s, [], true)

/-- The `SessionType::DHT` arm (`src/src/session.rs` lines 210-227): for each
advertised peer other than self with no live registry entry, emit a `Connect`
request. -/
def handleDHT (cfg : SessionConfig) (s : SessionState) (d : DHT) :
    SessionState × List Output × Bool :=
  (s,
   d.peers.filterMap (fun p =>
     if p.id != cfg.myPeer.id && !cfg.getIt p.id then some (Output.connectReq p.addr)
     else none),
   true)

/-- The inbound-frame dispatch (`src/src/session.rs` lines 131-245): `Ping`
answers `Pong`; `Pong`, `Hole` and `HoleConnect` have no effect. -/
def handleFrame (cfg : SessionConfig) (s : SessionState) :
    SessionType → SessionState × List Output × Bool
  | .Key bytes => handleKey cfg s bytes
  | .Data fromP toP e => handleData cfg s fromP toP e
  | .DHT d _sig => handleDHT cfg s d
  | .Ping => (s, [.sendFrame .Pong], true)
  | .Pong => (s, [], true)
  | .Hole _ => (s, [], true)
  | .HoleConnect => (s, [], true)

/-- The registry-command arm (`src/src/session.rs` lines 258-305): `Bytes`
encrypts and sends when keyed, else buffers; `Ok` marks the session accepted
and sends `RemotePublic`, own key material and a `DHT` gossip payload with an
empty signature, in that order; `Close` closes the transport and breaks. -/
def handleCmd (cfg : SessionConfig) (s : SessionState) :
    SessionSendMessage → SessionState × List Output × Bool
  | .Bytes fromP toP bytes =>
    if cfg.ops.is_ok s.skState then
      (s, [.sendFrame (.Data fromP toP (cfg.ops.encrypt s.skState bytes))], true)
    else
      ({ s with buffers := s.buffers ++ [(toP, bytes)] }, [], true)
  | .Ok data _stable =>
    ({ s with is_ok := true },
     [.sendRemotePublic cfg.myPeer data,
      .sendFrame (.Key (cfg.ops.out_bytes s.skState)),
      .sendFrame (.DHT ⟨cfg.dhtHelp⟩ [])],
     true)
  | .Close => (s, [.endpointClose], false)

/-- One iteration of the session's `select!` loop (`src/src/session.rs` lines
121-307): the resulting state, the emitted outputs, and whether the loop
continues (`true`) or breaks (`false`).  Every inbound endpoint event — frame,
malformed frame, transport close, other — is skipped by `continue` while
`is_ok` is false; a transport `Close` notifies the registry and breaks; any
other endpoint variant and a channel error break silently. -/
def step (cfg : SessionConfig) (s : SessionState) :
    Event → SessionState × List Output × Bool
  | .endpoint m =>
    if !s.is_ok then (s, [], true)
    else
      match m with
      | .frame t => handleFrame cfg s t
      | .malformed => (s, [], true)
      | .close => (s, [.closeNotify cfg.remotePeerId], false)
      | .other => (s, [], false)
  | .endpointErr => (s, [], false)
  | .registry c => handleCmd cfg s c
  | .registryErr => (s, [], false)

/-- The session loop over a list of ready events, stopping at the first
breaking iteration and concatenating all emitted outputs. -/
def runLoop (cfg : SessionConfig) : SessionState → List Event → List Output
  | _, [] => []
  | s, e :: es =>
    let r := step cfg s e
    if r.2.2 then r.2.1 ++ runLoop cfg r.1 es else r.2.1

/-- Modelled from the spec: the remote `Keypair` carried in `RemotePublic`
(`crate::keys` is not under `src/`), represented by its derived peer id — the
Keccak-256 derivation is external and deterministic. -/
structure Keypair where
  pid : Nat
deriving DecidableEq

/-- `peer_id()` of the remote keypair. -/
def Keypair.peer_id (k : Keypair) : Nat := k.pid

/-- `RemotePublic` from `src/src/session.rs` line 334: the remote public key,
the claimed local peer descriptor, and the app join data. -/
structure RemotePublic where
  pk : Keypair
  peerD : Peer
  join : List Nat
deriving DecidableEq

/-- The outcome of the 5-second handshake read of `src/src/session.rs` lines
69-98: the timeout (`result.is_err()`), a first message that is not a
decodable `RemotePublic` (`result` is `None`), or the decoded payload. -/
inductive HandshakeResult where
  | timeout
  | invalid
  | ok : RemotePublic → HandshakeResult
deriving DecidableEq

/-- The arguments of `start` (`src/src/session.rs` lines 56-66) that the
session observes: the observed remote address, this node's descriptor, the
externally supplied initial acceptance flag, the key-exchange operations and
the initial exchange state derived from the remote key
(`key.key.session_key(&key, &remote_peer_key)`), and the registry lookups. -/
structure StartConfig where
  ops : SKOps
  remoteAddr : SocketAddr
  myPeer : Peer
  isOk0 : Bool
  getPeer : Nat → Bool
  getIt : Nat → Bool
  dhtHelp : List Peer
  sessionKeyOf : Nat → Nat

/-- The per-loop context built after a successful handshake. -/
def mkSessionConfig (c : StartConfig) (remotePid : Nat) : SessionConfig :=
  { ops := c.ops, myPeer := c.myPeer, remotePeerId := remotePid,
    getPeer := c.getPeer, getIt := c.getIt, dhtHelp := c.dhtHelp }

/-- The whole session actor of `src/src/session.rs` lines 67-308: on handshake
timeout or decode failure, send transport-close and stop; on success, run the
NAT resolver over the observed address and the claimed descriptor, notify the
registry `Connected`, then run the loop. -/
def sessionRun (c : StartConfig) (h : HandshakeResult) (events : List Event) :
    List Output :=
  match h with
  | .timeout => [Output.endpointClose]
  | .invalid => [Output.endpointClose]
  | .ok rp =>
    Output.connected rp.pk.peer_id (nat c.remoteAddr rp.peerD) rp.join c.isOk0 ::
      runLoop (mkSessionConfig c rp.pk.peer_id)
        ⟨c.isOk0, c.sessionKeyOf rp.pk.peer_id, [], []⟩ events

/-- Whether an output is the registry `Close(peer_id)` notification. -/
def isCloseOut : Output → Bool
  | .closeNotify _ => true
  | _ => false

/-- `SIGNATURE_LENGTH` from `src/types/src/key.rs` line 15. -/
def SIGNATURE_LENGTH : Nat := 65

/-- `SECRET_KEY_LENGTH` from `src/types/src/key.rs` line 13. -/
def SECRET_KEY_LENGTH : Nat := 32

/-- `RecoveryId` of the external secp256k1 crate: exactly the four recovery
ids. -/
inductive RecoveryId where
  | Zero
  | One
  | Two
  | Three
deriving DecidableEq

/-- `RecoveryId::try_from` of the external secp256k1 crate: the ids 0-3
convert, anything else fails. -/
def RecoveryId.tryFrom : Nat → Option RecoveryId
  | 0 => some .Zero
  | 1 => some .One
  | 2 => some .Two
  | 3 => some .Three
  | _ => none

/-- The `match` of `Signature::to_bytes` (`src/types/src/key.rs` lines
133-138) mapping the recovery id to its numeric value. -/
def recIdNat : RecoveryId → Nat
  | .Zero => 0
  | .One => 1
  | .Two => 2
  | .Three => 3

/-- `Signature` from `src/types/src/key.rs` line 24, wrapping the external
`RecoverableSignature`: the 64-byte compact `(r,s)` form together with the
recovery id; `serialize_compact` returns exactly these two components. -/
structure Signature where
  rs : List Nat
  recv : RecoveryId
deriving DecidableEq

/-- `RecoverableSignature::from_compact` of the external secp256k1 crate,
modelled structurally: succeeds exactly on a 64-byte compact form. -/
def Signature.from_compact (b : List Nat) (recv : RecoveryId) : Option Signature :=
  if b.length = 64 then some ⟨b, recv⟩ else none

/-- `Signature::to_bytes` from `src/types/src/key.rs` lines 131-142: the
compact bytes followed by one byte `id + 27`. -/
def Signature.to_bytes (s : Signature) : List Nat :=
  s.rs ++ [recIdNat s.recv + 27]

/-- The trailing-byte classification of `Signature::from_bytes`
(`src/types/src/key.rs` lines 150-157): three legacy ranges. -/
def classifyV (v : Nat) : Nat :=
  if v ≤ 26 then v % 4
  else if v ≤ 34 then (v - 27) % 4
  else (v - 1) % 2

/-- `Signature::from_bytes` from `src/types/src/key.rs` lines 144-163: reject
any length other than 65, classify the trailing byte, convert it to a
`RecoveryId` and rebuild the signature from the first 64 bytes. -/
def Signature.from_bytes (b : List Nat) : Option Signature :=
  if b.length ≠ SIGNATURE_LENGTH then none
  else
    match RecoveryId.tryFrom (classifyV (b.getD 64 0)) with
    | none => none
    | some recv => Signature.from_compact (b.take 64) recv

/-- The secp256k1 group order, the bound `SecretKey::from_slice` of the
external crate checks scalars against. -/
def secpOrder : Nat :=
  0xFFFFFFFFFFFFFFFFFFFFFFFFFFFFFFFEBAAEDCE6AF48A03BBFD25E8CD0364141

/-- A valid secret scalar for `SecretKey::from_slice` of the external crate:
exactly 32 bytes whose big-endian value is a nonzero scalar below the group
order. -/
abbrev validScalar (b : List Nat) : Prop :=
  b.length = 32 ∧ 1 ≤ bytesToNatBE b ∧ bytesToNatBE b < secpOrder

/-- `SecretKey` from `src/types/src/key.rs` line 22, wrapping the external
`SecpSecretKey`, modelled by its 32 secret bytes (`secret_bytes()`). -/
structure SecKey where
  bytes : List Nat
deriving DecidableEq

/-- `SecpSecretKey::from_slice` of the external crate: succeeds exactly on a
valid 32-byte scalar. -/
def SecKey.from_slice (b : List Nat) : Option SecKey :=
  if validScalar b then some ⟨b⟩ else none

/-- Modelled from the spec: the secp256k1 public point derived from a secret
scalar.  The curve arithmetic is external; scalar-to-point derivation is
deterministic and injective, so the point is represented by the scalar bytes
that define it. -/
structure PubKey where
  ofScalar : List Nat
deriving DecidableEq

/-- `sec_key.0.public_key(&secp)`: derive the public point. -/
def derivePub (sk : SecKey) : PubKey := ⟨sk.bytes⟩

/-- `Key` from `src/types/src/key.rs` lines 27-30: the keypair. -/
structure Key where
  pub_key : PubKey
  sec_key : SecKey
deriving DecidableEq

/-- `Key::from_sec_key` from `src/types/src/key.rs` lines 33-38. -/
def Key.from_sec_key (sk : SecKey) : Key := ⟨derivePub sk, sk⟩

/-- `Key::to_db_bytes` from `src/types/src/key.rs` lines 82-86: the raw
secret bytes. -/
def Key.to_db_bytes (k : Key) : List Nat := k.sec_key.bytes

/-- `Key::from_db_bytes` from `src/types/src/key.rs` lines 88-97: fail on
fewer than 32 bytes, rebuild the secret key from the first 32 bytes only, and
rederive the keypair. -/
def Key.from_db_bytes (b : List Nat) : Option Key :=
  if b.length < SECRET_KEY_LENGTH then none
  else (SecKey.from_slice (b.take SECRET_KEY_LENGTH)).map Key.from_sec_key

/-! Concrete fixtures used by witnesses and counterexamples. -/

/-- A concrete key-exchange implementation: readiness at states of at least
100, material consumption that always accepts and moves the state, and a
decrypt that fails exactly on empty ciphertexts. -/
def opsC : SKOps :=
  { is_ok := fun n => decide (100 ≤ n)
  , in_bytes := fun n b => (true, n + b.length + 100)
  , out_bytes := fun n => [n]
  , encrypt := fun n b => n :: b
  , decrypt := fun n b => if b = [] then none else some (n :: b) }

/-- A concrete local peer descriptor. -/
def peerA : Peer := ⟨1, ⟨2, 3⟩, .TCP, true⟩

/-- A concrete claimed remote descriptor: UDP, claimed local port 2000. -/
def peerB : Peer := ⟨7, ⟨1, 2000⟩, .UDP, false⟩

/-- A concrete loop context. -/
def cfgC : SessionConfig := ⟨opsC, peerA, 7, fun _ => false, fun _ => false, []⟩

/-- A not-yet-accepted state with an unkeyed exchange. -/
def sUn : SessionState := ⟨false, 3, [], []⟩

/-- An accepted state with an unkeyed exchange and populated buffers. -/
def sAcc : SessionState := ⟨true, 3, [(4, [9]), (5, [8])], [[1], []]⟩

/-- An accepted state whose exchange is already ready. -/
def sReady : SessionState := ⟨true, 150, [(4, [9]), (5, [8])], [[1], []]⟩

/-- A concrete start context with a pre-accepted session. -/
def startC : StartConfig :=
  ⟨opsC, ⟨0, 1000⟩, peerA, true, fun _ => false, fun _ => false, [], fun _ => 3⟩

/-- A concrete decoded handshake payload. -/
def rpC : RemotePublic := ⟨⟨7⟩, peerB, [1]⟩

/-- The observed remote address of the NAT failing input. -/
def natFailAddr : SocketAddr := ⟨0, 1000⟩

/-- A concrete well-formed recoverable signature. -/
def sigC : Signature := ⟨List.replicate 64 2, .One⟩

/-- The 32-byte encoding of the scalar 1. -/
def skBytes1 : List Nat := List.replicate 31 0 ++ [1]

/-- The keypair of the scalar 1. -/
def keyC : Key := Key.from_sec_key ⟨skBytes1⟩

/-- A concrete well-formed peer record for codec witnesses. -/
def peer0 : Peer := ⟨0, ⟨0, 0⟩, .TCP, false⟩

/-! Generic helper lemmas. -/

theorem natToBytesLE_length (w v : Nat) : (natToBytesLE w v).length = w := by
  induction w generalizing v with
  | zero => rfl
  | succ n ih => simp [natToBytesLE, ih]

theorem bytesToNatLE_natToBytesLE (w v : Nat) (h : v < 256 ^ w) :
    bytesToNatLE (natToBytesLE w v) = v := by
  induction w generalizing v with
  | zero => simp [pow_zero, Nat.lt_one_iff] at h; simp [h, natToBytesLE, bytesToNatLE]
  | succ n ih =>
    have hdiv : v / 256 < 256 ^ n := by
      rw [Nat.div_lt_iff_lt_mul (by norm_num)]
      calc v < 256 ^ (n + 1) := h
        _ = 256 ^ n * 256 := by ring
    simp [natToBytesLE, bytesToNatLE, ih _ hdiv, Nat.mod_add_div]

theorem popFlush_eq_reverse_map {α β : Type} (f : α → β) (l : List α) :
    popFlush f l = (l.map f).reverse := by
  induction l with
  | nil => rfl
  | cons x xs ih => simp [popFlush, ih]

theorem popFlushOpt_eq_reverse_filterMap {α β : Type} (f : α → Option β) (l : List α) :
    popFlushOpt f l = (l.filterMap f).reverse := by
  induction l with
  | nil => rfl
  | cons x xs ih =>
    cases hx : f x <;> simp [popFlushOpt, ih, List.filterMap_cons, hx, Option.toList]

/-! C1: the NAT resolver. -/

/-- The resolver computes the flag by comparing the observed address's port
with itself (the claimed address was already overwritten), so the flag is
always `true`. -/
theorem nat_is_pub_always (r : SocketAddr) (l : Peer) : (nat r l).is_pub = true := by
  rcases l with ⟨i, a, t, p⟩
  cases t <;> simp [nat]

/-- C1: at observed port 1000 and claimed local port 2000 over UDP, the
corrected descriptor keeps the observed port 1000 as the claim states, but
reports `is_pub = true` where the claim requires `(1000 == 2000) = false`:
`nat` compares the observed port with itself after `set_addr` has overwritten
the claimed address. -/
theorem C1_nat_flag_bug :
    (nat natFailAddr peerB).addr.port = 1000 ∧ (nat natFailAddr peerB).is_pub = true :=
  ⟨rfl, rfl⟩

/-! C5: handshake timeout or decode failure. -/

/-- C5: on a handshake timeout or an undecodable first payload the session
sends only the transport-close and terminates; whatever the later events
would have been, the registry receives no notification of any kind. -/
theorem C5_handshake_failure_silent (c : StartConfig) (events : List Event) :
    sessionRun c .timeout events = [Output.endpointClose]
    ∧ sessionRun c .invalid events = [Output.endpointClose] :=
  ⟨rfl, rfl⟩

/-! C7: the DHT payload codec. -/

theorem peer_to_bytes_length (p : Peer) : (Peer.to_bytes p).length = PEER_LENGTH := by
  simp [Peer.to_bytes, natToBytesLE_length, PEER_LENGTH]

theorem Peer.from_to_bytes (p : Peer) (hw : p.wf) :
    Peer.from_bytes (Peer.to_bytes p) = some p := by
  rcases p with ⟨pid, ⟨ip, port⟩, tr, fl⟩
  obtain ⟨h1, h2, h3⟩ := hw
  have hA : (natToBytesLE 20 pid).length = 20 := natToBytesLE_length _ _
  have hB : (natToBytesLE 16 ip).length = 16 := natToBytesLE_length _ _
  have hC : (natToBytesLE 2 port).length = 2 := natToBytesLE_length _ _
  have e1 : (Peer.to_bytes ⟨pid, ⟨ip, port⟩, tr, fl⟩).take 20 = natToBytesLE 20 pid := by
    unfold Peer.to_bytes
    simp only [List.append_assoc]
    exact List.take_left' hA
  have ed20 : (Peer.to_bytes ⟨pid, ⟨ip, port⟩, tr, fl⟩).drop 20
      = natToBytesLE 16 ip ++ (natToBytesLE 2 port
        ++ ([transportToByte tr] ++ [if fl then 1 else 0])) := by
    unfold Peer.to_bytes
    simp only [List.append_assoc]
    exact List.drop_left' hA
  have e2 : ((Peer.to_bytes ⟨pid, ⟨ip, port⟩, tr, fl⟩).drop 20).take 16
      = natToBytesLE 16 ip := by
    rw [ed20]; exact List.take_left' hB
  have ed36 : (Peer.to_bytes ⟨pid, ⟨ip, port⟩, tr, fl⟩).drop 36
      = natToBytesLE 2 port ++ ([transportToByte tr] ++ [if fl then 1 else 0]) := by
    have h := congrArg (List.drop 16) ed20
    rw [List.drop_drop] at h
    rw [show (16 + 20 : Nat) = 36 from rfl] at h
    rw [h]
    exact List.drop_left' hB
  have e3 : ((Peer.to_bytes ⟨pid, ⟨ip, port⟩, tr, fl⟩).drop 36).take 2
      = natToBytesLE 2 port := by
    rw [ed36]; exact List.take_left' hC
  have ed38 : (Peer.to_bytes ⟨pid, ⟨ip, port⟩, tr, fl⟩).drop 38
      = [transportToByte tr, if fl then 1 else 0] := by
    have h := congrArg (List.drop 2) ed36
    rw [List.drop_drop] at h
    rw [show (2 + 36 : Nat) = 38 from rfl] at h
    rw [h]
    exact List.drop_left' hC
  unfold Peer.from_bytes
  rw [if_pos (peer_to_bytes_length _), ed38, e1, e2, e3,
    bytesToNatLE_natToBytesLE _ _ h1, bytesToNatLE_natToBytesLE _ _ h2,
    bytesToNatLE_natToBytesLE _ _ h3]
  cases tr <;> cases fl <;> rfl

theorem encFlatten_length (l : List Peer) :
    ((l.map Peer.to_bytes).flatten).length = l.length * PEER_LENGTH := by
  induction l with
  | nil => rfl
  | cons p t ih =>
    simp only [List.map_cons, List.flatten_cons, List.length_append,
      peer_to_bytes_length, ih, List.length_cons]
    ring

theorem decodeChunks_flatten (l : List Peer) (hw : ∀ p ∈ l, p.wf) :
    decodeChunks l.length ((l.map Peer.to_bytes).flatten) = some l := by
  induction l with
  | nil => rfl
  | cons p t ih =>
    simp only [List.length_cons, List.map_cons, List.flatten_cons, decodeChunks]
    rw [List.take_left' (peer_to_bytes_length p), List.drop_left' (peer_to_bytes_length p),
      Peer.from_to_bytes p (hw p (by simp)), ih (fun q hq => hw q (by simp [hq]))]
    rfl

/-- C7 amended: for every list of fewer than `2 ^ 32` well-formed peer
records, encoding then decoding the DHT payload returns exactly the original
records in order, and any buffer shorter than `4 + N * PEER_LENGTH` bytes,
where `N` is the little-endian u32 count in its first 4 bytes, fails to
decode. -/
theorem C7_dht_codec (l : List Peer) (b : List Nat)
    (hlt : l.length < 2 ^ 32) (hw : ∀ p ∈ l, p.wf)
    (hb4 : 4 ≤ b.length)
    (hshort : b.length < 4 + bytesToNatLE (b.take 4) * PEER_LENGTH) :
    DHT.from_bytes (DHT.to_bytes ⟨l⟩) = some ⟨l⟩ ∧ DHT.from_bytes b = none := by
  constructor
  · have hmod : l.length % 2 ^ 32 = l.length := Nat.mod_eq_of_lt hlt
    have hcl : (natToBytesLE 4 l.length).length = 4 := natToBytesLE_length _ _
    have henc : DHT.to_bytes ⟨l⟩
        = natToBytesLE 4 l.length ++ (l.map Peer.to_bytes).flatten := by
      unfold DHT.to_bytes
      rw [hmod]
    have hcount : bytesToNatLE (natToBytesLE 4 l.length) = l.length :=
      bytesToNatLE_natToBytesLE 4 l.length (by norm_num at hlt ⊢; exact hlt)
    rw [henc]
    unfold DHT.from_bytes
    rw [List.take_left' hcl, List.drop_left' hcl, hcount,
      if_neg (by simp [hcl]), if_neg (by rw [encFlatten_length]; exact lt_irrefl _),
      decodeChunks_flatten l hw]
    rfl
  · unfold DHT.from_bytes
    rw [if_neg (by omega), if_pos (by simp only [List.length_drop]; omega)]

/-- C7 witness input: a singleton record list and a 4-byte buffer declaring
one record. -/
theorem C7_dht_codec_witness :
    (([peer0].length < 2 ^ 32 ∧ (∀ p ∈ [peer0], p.wf)
      ∧ 4 ≤ ([1, 0, 0, 0] : List Nat).length
      ∧ ([1, 0, 0, 0] : List Nat).length
          < 4 + bytesToNatLE (([1, 0, 0, 0] : List Nat).take 4) * PEER_LENGTH))
    ∧ DHT.from_bytes (DHT.to_bytes ⟨[peer0]⟩) = some ⟨[peer0]⟩
    ∧ DHT.from_bytes [1, 0, 0, 0] = none := by
  refine ⟨⟨by decide, by decide, by decide, by decide⟩, ?_⟩
  exact C7_dht_codec [peer0] [1, 0, 0, 0] (by decide) (by decide) (by decide) (by decide)

theorem dht_encode_zero_count (l : List Peer) (h : l.length % 2 ^ 32 = 0) :
    (DHT.from_bytes (DHT.to_bytes ⟨l⟩)).map (fun d => d.peers.length) = some 0 := by
  have henc : DHT.to_bytes ⟨l⟩ = [0, 0, 0, 0] ++ (l.map Peer.to_bytes).flatten := by
    show natToBytesLE 4 (l.length % 2 ^ 32) ++ (l.map Peer.to_bytes).flatten = _
    rw [h]
    rfl
  rw [henc]
  have hlen4 : (([0, 0, 0, 0] ++ (l.map Peer.to_bytes).flatten).length)
      = 4 + ((l.map Peer.to_bytes).flatten).length := by
    rw [List.length_append]
    rfl
  have hb0 : bytesToNatLE [0, 0, 0, 0] = 0 := rfl
  unfold DHT.from_bytes
  rw [List.take_left' (show ([0, 0, 0, 0] : List Nat).length = 4 from rfl),
    List.drop_left' (show ([0, 0, 0, 0] : List Nat).length = 4 from rfl),
    hb0, Nat.zero_mul, if_neg (by rw [hlen4]; omega), if_neg (Nat.not_lt_zero _)]
  rfl

/-- C7 counterexample: a list of `2 ^ 32` records does not round-trip — the
`len as u32` cast truncates the count to 0, so decoding yields 0 records, not
`2 ^ 32`. -/
theorem C7_count_truncation :
    (DHT.from_bytes (DHT.to_bytes ⟨List.replicate (2 ^ 32) peer0⟩)).map
        (fun d => d.peers.length) = some 0
    ∧ (List.replicate (2 ^ 32) peer0).length = 2 ^ 32 :=
  ⟨dht_encode_zero_count _ (by rw [List.length_replicate, Nat.mod_self]),
   List.length_replicate _ _⟩

/-! C6: recoverable signature encode/decode. -/

theorem getD_append_self (l : List Nat) (x d : Nat) :
    (l ++ [x]).getD l.length d = x := by
  induction l with
  | nil => rfl
  | cons a t ih => simp

theorem sig_to_bytes_length (s : Signature) (hs : s.rs.length = 64) :
    (Signature.to_bytes s).length = 65 := by
  simp [Signature.to_bytes, hs]

/-- C6: a recoverable signature with 64 compact bytes encodes to exactly 65
bytes ending in `recovery id + 27`; decoding the encoding returns the same
compact bytes and recovery id; any buffer of another length fails to decode;
and the trailing byte is classified by exactly the three legacy ranges. -/
theorem C6_signature_codec (s : Signature) (b : List Nat) (v : Nat)
    (hs : s.rs.length = 64) (hb : b.length ≠ 65) :
    (Signature.to_bytes s).length = 65
    ∧ (Signature.to_bytes s).getD 64 0 = recIdNat s.recv + 27
    ∧ Signature.from_bytes (Signature.to_bytes s) = some s
    ∧ Signature.from_bytes b = none
    ∧ (v ≤ 26 → classifyV v = v % 4)
    ∧ (27 ≤ v → v ≤ 34 → classifyV v = (v - 27) % 4)
    ∧ (35 ≤ v → classifyV v = (v - 1) % 2) := by
  have hlast : (Signature.to_bytes s).getD 64 0 = recIdNat s.recv + 27 := by
    unfold Signature.to_bytes
    rw [← hs]
    exact getD_append_self _ _ _
  refine ⟨sig_to_bytes_length s hs, hlast, ?_, ?_, ?_, ?_, ?_⟩
  · unfold Signature.from_bytes
    rw [if_neg (by rw [sig_to_bytes_length s hs]; decide), hlast]
    have hcl : classifyV (recIdNat s.recv + 27) = recIdNat s.recv := by
      cases s.recv <;> rfl
    rw [hcl]
    have htry : RecoveryId.tryFrom (recIdNat s.recv) = some s.recv := by
      cases s.recv <;> rfl
    rw [htry]
    show Signature.from_compact ((Signature.to_bytes s).take 64) s.recv = some s
    unfold Signature.to_bytes
    rw [← hs, List.take_left]
    unfold Signature.from_compact
    rw [if_pos hs]
  · unfold Signature.from_bytes
    rw [if_pos (by simpa [SIGNATURE_LENGTH] using hb)]
  · intro h
    simp [classifyV, h]
  · intro h1 h2
    rw [classifyV, if_neg (by omega), if_pos h2]
  · intro h
    rw [classifyV, if_neg (by omega), if_neg (by omega)]

/-- C6 witness: the all-2 compact form with recovery id 1, the empty buffer,
and trailing byte 3. -/
theorem C6_signature_codec_witness :
    (sigC.rs.length = 64 ∧ ([] : List Nat).length ≠ 65)
    ∧ ((Signature.to_bytes sigC).length = 65
      ∧ (Signature.to_bytes sigC).getD 64 0 = recIdNat sigC.recv + 27
      ∧ Signature.from_bytes (Signature.to_bytes sigC) = some sigC
      ∧ Signature.from_bytes [] = none
      ∧ (3 ≤ 26 → classifyV 3 = 3 % 4)
      ∧ (27 ≤ 3 → 3 ≤ 34 → classifyV 3 = (3 - 27) % 4)
      ∧ (35 ≤ 3 → classifyV 3 = (3 - 1) % 2)) :=
  ⟨⟨by decide, by decide⟩, C6_signature_codec sigC [] 3 (by decide) (by decide)⟩

/-! C9: key persistence round-trip with a byte suffix. -/

/-- C9: loading `to_db_bytes k` followed by any suffix succeeds and returns
the keypair back — the loader reads only the first 32 bytes, so over-long
buffers are accepted. -/
theorem C9_key_db_roundtrip (k : Key) (s : List Nat)
    (hv : validScalar k.sec_key.bytes) (hpk : k.pub_key = derivePub k.sec_key) :
    Key.from_db_bytes (Key.to_db_bytes k ++ s) = some k := by
  rcases k with ⟨pk, ⟨b⟩⟩
  dsimp only at hv hpk
  obtain ⟨hlen, h1, h2⟩ := hv
  subst hpk
  unfold Key.from_db_bytes Key.to_db_bytes SecKey.from_slice
  simp only [SECRET_KEY_LENGTH]
  rw [if_neg (by rw [List.length_append, hlen]; omega), List.take_left' hlen,
    if_pos ⟨hlen, h1, h2⟩]
  rfl

/-- C9 witness: the keypair of scalar 1 with a 2-byte suffix. -/
theorem C9_key_db_roundtrip_witness :
    (validScalar keyC.sec_key.bytes ∧ keyC.pub_key = derivePub keyC.sec_key)
    ∧ Key.from_db_bytes (Key.to_db_bytes keyC ++ [9, 9]) = some keyC :=
  ⟨⟨by decide, rfl⟩, C9_key_db_roundtrip keyC [9, 9] (by decide) rfl⟩

/-! Session-loop close-notification accounting. -/

theorem countP_popFlush_zero {α : Type} (p : Output → Bool) (f : α → Output)
    (l : List α) (h : ∀ x, p (f x) = false) : (popFlush f l).countP p = 0 := by
  rw [List.countP_eq_zero]
  intro a ha
  rw [popFlush_eq_reverse_map, List.mem_reverse, List.mem_map] at ha
  obtain ⟨x, _, rfl⟩ := ha
  simp [h]

theorem countP_popFlushOpt_zero {α : Type} (p : Output → Bool) (f : α → Option Output)
    (l : List α) (h : ∀ x a, f x = some a → p a = false) :
    (popFlushOpt f l).countP p = 0 := by
  rw [List.countP_eq_zero]
  intro a ha
  rw [popFlushOpt_eq_reverse_filterMap, List.mem_reverse, List.mem_filterMap] at ha
  obtain ⟨x, _, hx⟩ := ha
  simp [h x a hx]

theorem isClose_decIn (cfg : SessionConfig) (k : Nat) (x : List Nat) (a : Output)
    (hx : decIn cfg k x = some a) : isCloseOut a = false := by
  unfold decIn at hx
  cases hd : cfg.ops.decrypt k x with
  | none => rw [hd] at hx; cases hx
  | some d =>
    rw [hd] at hx
    cases hx
    rfl

/-- Neither flush loop ever emits a registry close notification. -/
theorem countP_flush_zero (cfg : SessionConfig) (k : Nat)
    (bs : List (Nat × List Nat)) (rs : List (List Nat)) :
    (popFlush (encOut cfg k) bs ++ popFlushOpt (decIn cfg k) rs).countP isCloseOut = 0 := by
  rw [List.countP_append,
    countP_popFlush_zero isCloseOut (encOut cfg k) bs (fun x => rfl),
    countP_popFlushOpt_zero isCloseOut (decIn cfg k) rs (isClose_decIn cfg k)]

theorem close_not_mem_of_countP_zero (l : List Output)
    (h : l.countP isCloseOut = 0) (pid : Nat) : Output.closeNotify pid ∉ l := by
  intro hm
  have hfalse := List.countP_eq_zero.1 h _ hm
  simp [isCloseOut] at hfalse

theorem handleData_no_close (cfg : SessionConfig) (s : SessionState)
    (f t : Nat) (e_data : List Nat) :
    (handleData cfg s f t e_data).2.1.countP isCloseOut = 0 := by
  unfold handleData
  cases hk : cfg.ops.is_ok s.skState
  · rfl
  · cases hd : cfg.ops.decrypt s.skState e_data
    · simp [hd]
    · simp only [hd, Bool.not_true, Bool.false_eq_true, if_false]
      split_ifs <;> rfl

theorem handleDHT_no_close (cfg : SessionConfig) (s : SessionState) (d : DHT) :
    (handleDHT cfg s d).2.1.countP isCloseOut = 0 := by
  unfold handleDHT
  rw [List.countP_eq_zero]
  intro a ha
  simp only [List.mem_filterMap] at ha
  obtain ⟨p, _, hfa⟩ := ha
  by_cases hc : (p.id != cfg.myPeer.id && !cfg.getIt p.id) = true
  · rw [if_pos hc] at hfa
    cases hfa
    simp [isCloseOut]
  · rw [if_neg hc] at hfa
    cases hfa

theorem handleKey_spec (cfg : SessionConfig) (s : SessionState) (bytes : List Nat) :
    (handleKey cfg s bytes).2.1.countP isCloseOut = 0
    ∨ ((handleKey cfg s bytes).2.1 = [.closeNotify cfg.remotePeerId, .endpointClose]
        ∧ (handleKey cfg s bytes).2.2 = false) := by
  unfold handleKey
  cases hk : cfg.ops.is_ok s.skState
  · cases hin : (cfg.ops.in_bytes s.skState bytes).1
    · right
      constructor <;> simp [hin]
    · left
      simp only [hin, Bool.not_true, Bool.false_eq_true, if_false, Bool.not_false, if_true]
      rw [List.countP_cons]
      simp only [isCloseOut]
      rw [countP_flush_zero]
      simp
  · left
    simp only [hk, Bool.not_true, Bool.false_eq_true, if_false]
    rw [countP_flush_zero]

/-- Each loop iteration either emits no close notification, or emits exactly
the close-and-break shape of the key-rejection arm or of the transport-close
arm, both with the remote peer id. -/
theorem step_spec (cfg : SessionConfig) (s : SessionState) (e : Event) :
    (step cfg s e).2.1.countP isCloseOut = 0
    ∨ ((step cfg s e).2.1 = [.closeNotify cfg.remotePeerId, .endpointClose]
        ∧ (step cfg s e).2.2 = false)
    ∨ ((step cfg s e).2.1 = [.closeNotify cfg.remotePeerId]
        ∧ (step cfg s e).2.2 = false) := by
  cases e with
  | endpointErr => exact Or.inl rfl
  | registryErr => exact Or.inl rfl
  | registry c =>
    cases c with
    | Ok data st => exact Or.inl rfl
    | Close => exact Or.inl rfl
    | Bytes f t bs =>
      by_cases hk : cfg.ops.is_ok s.skState = true
      · left
        have hcmd : handleCmd cfg s (.Bytes f t bs)
            = (s, [.sendFrame (.Data f t (cfg.ops.encrypt s.skState bs))], true) := by
          simp only [handleCmd]
          rw [if_pos hk]
        show (handleCmd cfg s (.Bytes f t bs)).2.1.countP isCloseOut = 0
        rw [hcmd]
        rfl
      · left
        have hcmd : handleCmd cfg s (.Bytes f t bs)
            = ({ s with buffers := s.buffers ++ [(t, bs)] }, [], true) := by
          simp only [handleCmd]
          rw [if_neg hk]
        show (handleCmd cfg s (.Bytes f t bs)).2.1.countP isCloseOut = 0
        rw [hcmd]
        rfl
  | endpoint m =>
    cases hok : s.is_ok
    · left
      simp [step, hok]
    · cases m with
      | malformed => left; simp [step, hok]
      | other => left; simp [step, hok]
      | close =>
        right; right
        constructor <;> simp [step, hok]
      | frame t =>
        have hstep : step cfg s (.endpoint (.frame t)) = handleFrame cfg s t := by
          simp [step, hok]
        rw [hstep]
        cases t with
        | Ping => exact Or.inl rfl
        | Pong => exact Or.inl rfl
        | Hole hm => exact Or.inl rfl
        | HoleConnect => exact Or.inl rfl
        | DHT d sg => exact Or.inl (handleDHT_no_close cfg s d)
        | Data f t e_data => exact Or.inl (handleData_no_close cfg s f t e_data)
        | Key bytes =>
          rcases handleKey_spec cfg s bytes with hcase | hcase
          · exact Or.inl hcase
          · exact Or.inr (Or.inl hcase)

theorem runLoop_cons (cfg : SessionConfig) (s : SessionState) (e : Event)
    (es : List Event) :
    runLoop cfg s (e :: es)
      = if (step cfg s e).2.2 then (step cfg s e).2.1 ++ runLoop cfg (step cfg s e).1 es
        else (step cfg s e).2.1 := rfl

theorem countP_close_pair (pid : Nat) :
    ([Output.closeNotify pid, Output.endpointClose]).countP isCloseOut = 1 := rfl

theorem countP_close_single (pid : Nat) :
    ([Output.closeNotify pid]).countP isCloseOut = 1 := rfl

/-- Along any sequence of loop iterations, at most one registry close
notification is emitted: every close-emitting arm breaks the loop. -/
theorem runLoop_close_count (cfg : SessionConfig) (evs : List Event) :
    ∀ s : SessionState, (runLoop cfg s evs).countP isCloseOut ≤ 1 := by
  induction evs with
  | nil =>
    intro s
    simp [runLoop]
  | cons e es ih =>
    intro s
    rw [runLoop_cons]
    cases hc : (step cfg s e).2.2
    · rw [if_neg Bool.false_ne_true]
      rcases step_spec cfg s e with h0 | ⟨hl, _⟩ | ⟨hl, _⟩
      · rw [h0]; omega
      · rw [hl, countP_close_pair]
      · rw [hl, countP_close_single]
    · rw [if_pos rfl, List.countP_append]
      rcases step_spec cfg s e with h0 | ⟨_, hl2⟩ | ⟨_, hl2⟩
      · rw [h0]
        simpa using ih (step cfg s e).1
      · rw [hl2] at hc; exact Bool.noConfusion hc
      · rw [hl2] at hc; exact Bool.noConfusion hc

/-- Every close notification the loop emits names the remote peer id. -/
theorem runLoop_close_pid (cfg : SessionConfig) (evs : List Event) :
    ∀ (s : SessionState) (pid : Nat),
      Output.closeNotify pid ∈ runLoop cfg s evs → pid = cfg.remotePeerId := by
  induction evs with
  | nil =>
    intro s pid h
    simp [runLoop] at h
  | cons e es ih =>
    intro s pid h
    rw [runLoop_cons] at h
    have hstep : Output.closeNotify pid ∈ (step cfg s e).2.1 → pid = cfg.remotePeerId := by
      intro hm
      rcases step_spec cfg s e with h0 | ⟨hl, _⟩ | ⟨hl, _⟩
      · exact absurd hm (close_not_mem_of_countP_zero _ h0 pid)
      · rw [hl] at hm
        rcases List.mem_cons.1 hm with he | hm2
        · cases he; rfl
        · rcases List.mem_cons.1 hm2 with he | hm3
          · cases he
          · cases hm3
      · rw [hl] at hm
        rcases List.mem_cons.1 hm with he | hm2
        · cases he; rfl
        · cases hm2
    cases hc : (step cfg s e).2.2
    · rw [hc, if_neg Bool.false_ne_true] at h
      exact hstep h
    · rw [hc, if_pos rfl] at h
      rcases List.mem_append.1 h with h1 | h2
      · exact hstep h1
      · exact ih (step cfg s e).1 pid h2

/-- C4: per session execution the registry receives at most one
`Close(peer_id)` notification, and if it receives one then the very first
output of the session was the `Connected` notification for that same peer id,
with the close strictly after it. -/
theorem C4_single_close_after_connected (c : StartConfig) (h : HandshakeResult)
    (events : List Event) :
    (sessionRun c h events).countP isCloseOut ≤ 1
    ∧ ∀ pid, Output.closeNotify pid ∈ sessionRun c h events →
        ∃ p j b l₂, sessionRun c h events = Output.connected pid p j b :: l₂
          ∧ Output.closeNotify pid ∈ l₂ := by
  cases h with
  | timeout =>
    refine ⟨by simp [sessionRun, isCloseOut], ?_⟩
    intro pid hm
    simp [sessionRun] at hm
  | invalid =>
    refine ⟨by simp [sessionRun, isCloseOut], ?_⟩
    intro pid hm
    simp [sessionRun] at hm
  | ok rp =>
    constructor
    · show (Output.connected rp.pk.peer_id (nat c.remoteAddr rp.peerD) rp.join c.isOk0 ::
          runLoop (mkSessionConfig c rp.pk.peer_id)
            ⟨c.isOk0, c.sessionKeyOf rp.pk.peer_id, [], []⟩ events).countP isCloseOut ≤ 1
      rw [List.countP_cons]
      have hrl := runLoop_close_count (mkSessionConfig c rp.pk.peer_id) events
        ⟨c.isOk0, c.sessionKeyOf rp.pk.peer_id, [], []⟩
      simp only [isCloseOut, Bool.false_eq_true, if_false]
      omega
    · intro pid hm
      have hm' : Output.closeNotify pid ∈ runLoop (mkSessionConfig c rp.pk.peer_id)
          ⟨c.isOk0, c.sessionKeyOf rp.pk.peer_id, [], []⟩ events := by
        rcases List.mem_cons.1 hm with he | ht
        · cases he
        · exact ht
      have hpid := runLoop_close_pid (mkSessionConfig c rp.pk.peer_id) events
        ⟨c.isOk0, c.sessionKeyOf rp.pk.peer_id, [], []⟩ pid hm'
      have hpid' : pid = rp.pk.peer_id := hpid
      subst hpid'
      exact ⟨nat c.remoteAddr rp.peerD, rp.join, c.isOk0, _, rfl, hm'⟩

/-- C4 witness: a pre-accepted session that receives a transport close right
after the handshake emits exactly `Connected` then `Close`, for peer id 7. -/
theorem C4_single_close_after_connected_witness :
    (sessionRun startC (.ok rpC) [.endpoint .close]).countP isCloseOut ≤ 1
    ∧ (∃ p j b l₂, sessionRun startC (.ok rpC) [.endpoint .close]
        = Output.connected 7 p j b :: l₂ ∧ Output.closeNotify 7 ∈ l₂) :=
  ⟨(C4_single_close_after_connected startC (.ok rpC) [.endpoint .close]).1,
   (C4_single_close_after_connected startC (.ok rpC) [.endpoint .close]).2 7 (by decide)⟩

/-! C2: inbound handling while not yet accepted. -/

/-- C2 amended: while the session has not been accepted (no `Ok` command
processed), every inbound endpoint event — application frames and Key control
frames alike — is ignored entirely: no output, no state change, and the loop
continues. -/
theorem C2_unaccepted_ignores_all (cfg : SessionConfig) (s : SessionState)
    (m : EndpointIn) (h : s.is_ok = false) :
    step cfg s (.endpoint m) = (s, [], true) := by
  simp [step, h]

/-- C2 witness: the unaccepted state with a Key frame. -/
theorem C2_unaccepted_ignores_all_witness :
    sUn.is_ok = false
    ∧ step cfgC sUn (.endpoint (.frame (.Key [1, 2]))) = (sUn, [], true) :=
  ⟨rfl, C2_unaccepted_ignores_all cfgC sUn (.frame (.Key [1, 2])) rfl⟩

/-- C2 counterexample: in an unaccepted session with an unkeyed exchange, an
inbound Key frame produces no output and leaves the exchange state untouched,
although feeding it would have changed the state — so Key frames are not
exempt from the pre-acceptance drop. -/
theorem C2_key_frame_dropped_when_unaccepted :
    step cfgC sUn (.endpoint (.frame (.Key [1, 2]))) = (sUn, [], true)
    ∧ cfgC.ops.is_ok sUn.skState = false
    ∧ cfgC.ops.in_bytes sUn.skState [1, 2] ≠ (true, sUn.skState) :=
  ⟨rfl, rfl, by decide⟩

/-! C3: transport close and transport error. -/

/-- C3 amended: when the transport reports `Close` to an accepted session the
registry receives `Close(peer_id)` and the loop breaks; when the transport
channel errors the loop breaks without any registry notification. -/
theorem C3_transport_end (cfg : SessionConfig) (s : SessionState)
    (h : s.is_ok = true) :
    step cfg s (.endpoint .close) = (s, [.closeNotify cfg.remotePeerId], false)
    ∧ step cfg s .endpointErr = (s, [], false) := by
  constructor
  · simp [step, h]
  · rfl

/-- C3 witness: an accepted session. -/
theorem C3_transport_end_witness :
    sAcc.is_ok = true
    ∧ step cfgC sAcc (.endpoint .close) = (sAcc, [.closeNotify cfgC.remotePeerId], false)
    ∧ step cfgC sAcc .endpointErr = (sAcc, [], false) :=
  ⟨rfl, (C3_transport_end cfgC sAcc rfl).1, (C3_transport_end cfgC sAcc rfl).2⟩

/-- C3 counterexample: on a transport channel error to an accepted session the
loop terminates with no outputs at all — the registry receives no
`Close(peer_id)` in the error case. -/
theorem C3_error_without_notify :
    sAcc.is_ok = true ∧ step cfgC sAcc .endpointErr = (sAcc, [], false) :=
  ⟨rfl, rfl⟩

/-! C8: unkeyed-period buffers flush in LIFO order. -/

/-- C8: when key material arrives (or a Key frame is handled with the
exchange already ready), both unkeyed-period buffers are flushed by `pop`
loops, i.e. in the reverse of their arrival order: outbound payloads are
encrypted and sent reversed, and buffered inbound ciphertexts are delivered
upward reversed, dropping those that fail to decrypt. -/
theorem C8_flush_lifo (cfg : SessionConfig) (s : SessionState) (bytes : List Nat)
    (hacc : s.is_ok = true) :
    (cfg.ops.is_ok s.skState = false → (cfg.ops.in_bytes s.skState bytes).1 = true →
      step cfg s (.endpoint (.frame (.Key bytes)))
        = ({ s with skState := (cfg.ops.in_bytes s.skState bytes).2,
                    buffers := [], receiver_buffers := [] },
           Output.sendFrame (.Key (cfg.ops.out_bytes (cfg.ops.in_bytes s.skState bytes).2)) ::
             ((s.buffers.map (encOut cfg (cfg.ops.in_bytes s.skState bytes).2)).reverse
               ++ (s.receiver_buffers.filterMap
                     (decIn cfg (cfg.ops.in_bytes s.skState bytes).2)).reverse),
           true))
    ∧ (cfg.ops.is_ok s.skState = true →
      step cfg s (.endpoint (.frame (.Key bytes)))
        = ({ s with buffers := [], receiver_buffers := [] },
           (s.buffers.map (encOut cfg s.skState)).reverse
             ++ (s.receiver_buffers.filterMap (decIn cfg s.skState)).reverse,
           true)) := by
  constructor
  · intro hnok hin
    simp [step, hacc, handleFrame, handleKey, hnok, hin, popFlush_eq_reverse_map,
      popFlushOpt_eq_reverse_filterMap]
  · intro hok
    simp [step, hacc, handleFrame, handleKey, hok, popFlush_eq_reverse_map,
      popFlushOpt_eq_reverse_filterMap]

/-- C8 witness: an accepted unkeyed session with two buffered outbound
payloads and two buffered inbound ciphertexts. -/
theorem C8_flush_lifo_witness :
    sAcc.is_ok = true
    ∧ (cfgC.ops.is_ok sAcc.skState = false →
        (cfgC.ops.in_bytes sAcc.skState [1]).1 = true →
        step cfgC sAcc (.endpoint (.frame (.Key [1])))
          = ({ sAcc with skState := (cfgC.ops.in_bytes sAcc.skState [1]).2,
                         buffers := [], receiver_buffers := [] },
             Output.sendFrame (.Key (cfgC.ops.out_bytes (cfgC.ops.in_bytes sAcc.skState [1]).2)) ::
               ((sAcc.buffers.map (encOut cfgC (cfgC.ops.in_bytes sAcc.skState [1]).2)).reverse
                 ++ (sAcc.receiver_buffers.filterMap
                       (decIn cfgC (cfgC.ops.in_bytes sAcc.skState [1]).2)).reverse),
             true)) :=
  ⟨rfl, (C8_flush_lifo cfgC sAcc [1] rfl).1⟩

/-! C10: Key frames after the exchange is ready. -/

/-- C10: once the session key reports ready, a further inbound Key frame
leaves the exchange state unchanged (its bytes are never fed in), emits no
registry close notification, and never breaks the loop. -/
theorem C10_key_frame_after_ready (cfg : SessionConfig) (s : SessionState)
    (bytes : List Nat) (hready : cfg.ops.is_ok s.skState = true) :
    (step cfg s (.endpoint (.frame (.Key bytes)))).1.skState = s.skState
    ∧ (step cfg s (.endpoint (.frame (.Key bytes)))).2.1.countP isCloseOut = 0
    ∧ (step cfg s (.endpoint (.frame (.Key bytes)))).2.2 = true := by
  cases hok : s.is_ok
  · simp [step, hok]
  · have hstep : step cfg s (.endpoint (.frame (.Key bytes)))
        = ({ s with buffers := [], receiver_buffers := [] },
           popFlush (encOut cfg s.skState) s.buffers
             ++ popFlushOpt (decIn cfg s.skState) s.receiver_buffers, true) := by
      simp [step, hok, handleFrame, handleKey, hready]
    rw [hstep]
    exact ⟨rfl, countP_flush_zero cfg s.skState s.buffers s.receiver_buffers, rfl⟩

/-- C10 witness: a ready keyed session receiving one more Key frame. -/
theorem C10_key_frame_after_ready_witness :
    cfgC.ops.is_ok sReady.skState = true
    ∧ (step cfgC sReady (.endpoint (.frame (.Key [5])))).1.skState = sReady.skState
    ∧ (step cfgC sReady (.endpoint (.frame (.Key [5])))).2.1.countP isCloseOut = 0
    ∧ (step cfgC sReady (.endpoint (.frame (.Key [5])))).2.2 = true :=
  ⟨rfl, C10_key_frame_after_ready cfgC sReady [5] rfl⟩

end Chamomile
